import Mathlib

/-!
Verification development for the SkillSync AI client (a single-page resume
analysis web client).  The definitions below are a shallow embedding of the
client logic in `src` (the React `App` component): the score-extraction
heuristic `extractMatchScore`, the section parser `parseAnalysisResult`, the
file validator `handleFileChange`, the submit preconditions of
`handleSubmit`, the score banding helpers, and a discrete-event model of the
error auto-clear timers.

Strings are modelled as `List Char` (JS `.length` counts UTF-16 units, which
coincides with the character count on the ASCII inputs concerned here).
JS regex matching is embedded per pattern: each of the concrete patterns in
the source is compiled by hand into a backtracking-equivalent recursive
scanner; the case-insensitive flag is modelled by ASCII lowercasing, which
agrees with the JS canonicalisation rules for ASCII pattern literals when
the `u` flag is absent.  Machine integers are `Nat` (`parseInt` on a digit
string is exact decimal evaluation).
-/

namespace SkillSync

/-- ASCII digit test, as used by the regex class `\d`. -/
def isDigitCh (c : Char) : Bool := '0' ≤ c && c ≤ '9'

/-- JS regex line terminators, which the dot `.` does not match when the `s`
flag is absent: LF, CR, LINE SEPARATOR, PARAGRAPH SEPARATOR. -/
def isLineTerm (c : Char) : Bool :=
  c == '\n' || c == '\r' || c.toNat == 0x2028 || c.toNat == 0x2029

/-- JS whitespace as matched by the regex class `\s` and stripped by
`String.prototype.trim`. -/
def isJsWs (c : Char) : Bool :=
  c == ' ' || c == '\t' || c == '\n' || c == '\r' ||
  c.toNat == 0x0B || c.toNat == 0x0C || c.toNat == 0xA0 ||
  c.toNat == 0x1680 || (0x2000 ≤ c.toNat && c.toNat ≤ 0x200A) ||
  c.toNat == 0x2028 || c.toNat == 0x2029 || c.toNat == 0x202F ||
  c.toNat == 0x205F || c.toNat == 0x3000 || c.toNat == 0xFEFF

/-- Greedy `\d+` at the head of the input: the maximal leading digit run and
the remainder. -/
def takeDigits : List Char → List Char × List Char
  | [] => ([], [])
  | c :: t =>
    if isDigitCh c then
      let p := takeDigits t
      (c :: p.1, p.2)
    else ([], c :: t)

/-- Decimal value of a digit string, as computed by `parseInt` on the
captured digits. -/
def digitsToNat (ds : List Char) : Nat :=
  ds.foldl (fun a c => a * 10 + (c.toNat - '0'.toNat)) 0

/-- Anchored match of `(\d+)%`: the captured value and the remainder after
the `%`.  Backtracking inside `\d+` can never rescue a failure (a shorter
digit run is followed by a digit, not `%`), so the greedy run is exact. -/
def digitsPct (cs : List Char) : Option (Nat × List Char) :=
  match takeDigits cs with
  | ([], _) => none
  | (ds, r) =>
    match r with
    | '%' :: r2 => some (digitsToNat ds, r2)
    | _ => none

/-- Anchored match of `(\d+)\s*%` (pattern four): captured value and the
remainder after the `%`. -/
def digitsWsPct (cs : List Char) : Option (Nat × List Char) :=
  match takeDigits cs with
  | ([], _) => none
  | (ds, r) =>
    match r.dropWhile isJsWs with
    | '%' :: r2 => some (digitsToNat ds, r2)
    | _ => none

/-- Lazy scan `.*?(\d+)%` (no `s` flag): the first position reachable
through non-line-terminator characters where `(\d+)%` matches. -/
def scanPct (cs : List Char) : Option Nat :=
  match digitsPct cs with
  | some p => some p.1
  | none =>
    match cs with
    | [] => none
    | c :: t => if isLineTerm c then none else scanPct t

/-- Case-insensitive match of an (already lowercased, ASCII) literal at the
head of the input; returns the remainder. -/
def litAt : List Char → List Char → Option (List Char)
  | [], cs => some cs
  | _ :: _, [] => none
  | a :: as, b :: bs => if a == b.toLower then litAt as bs else none

/-- Lazy scan `.*?lit` (no `s` flag) for a case-insensitive literal. -/
def scanLit (lit : List Char) (cs : List Char) : Bool :=
  match litAt lit cs with
  | some _ => true
  | none =>
    match cs with
    | [] => false
    | c :: t => if isLineTerm c then false else scanLit lit t

/-- Embedding of `/Match Percentage:.*?(\d+)%/i` applied by `String.match`:
the capture of the leftmost full match. -/
def matchPat1 (cs : List Char) : Option Nat :=
  match (match litAt "match percentage:".data cs with
         | some r => scanPct r
         | none => none) with
  | some n => some n
  | none =>
    match cs with
    | [] => none
    | _ :: t => matchPat1 t

/-- Embedding of `/(\d+)%.*?match/i`: the capture of the leftmost full
match. -/
def matchPat2 (cs : List Char) : Option Nat :=
  match (match digitsPct cs with
         | some p => if scanLit "match".data p.2 then some p.1 else none
         | none => none) with
  | some n => some n
  | none =>
    match cs with
    | [] => none
    | _ :: t => matchPat2 t

/-- Embedding of `/score:.*?(\d+)%/i`: the capture of the leftmost full
match. -/
def matchPat3 (cs : List Char) : Option Nat :=
  match (match litAt "score:".data cs with
         | some r => scanPct r
         | none => none) with
  | some n => some n
  | none =>
    match cs with
    | [] => none
    | _ :: t => matchPat3 t

/-- All successive non-overlapping matches of `/(\d+)\s*%/g`, each reported
as the `parseInt` value of the full matched text (which starts with the
digit run, so `parseInt` returns exactly that run's value).  The fuel
argument bounds the recursion; every step consumes at least one character,
so `fuel = cs.length` is always sufficient. -/
def allPctF : Nat → List Char → List Nat
  | 0, _ => []
  | fuel + 1, cs =>
    match digitsWsPct cs with
    | some p => p.1 :: allPctF fuel p.2
    | none =>
      match cs with
      | [] => []
      | _ :: t => allPctF fuel t

/-- All matches of `/(\d+)\s*%/g` over the input. -/
def allPct (cs : List Char) : List Nat := allPctF cs.length cs

/-- Effective value of `parseInt(match[1])` for pattern four: with the `g`
flag, `String.match` returns the array of full matches without capture
groups, so `match[1]` is the second full match (or `undefined`, giving
`NaN`, when fewer than two matches exist). -/
def matchPat4 (cs : List Char) : Option Nat := (allPct cs).get? 1

/-- The in-range filter of the pattern loop: a candidate score is accepted
only when `score >= 0 && score <= 100` (the lower bound is automatic for
`Nat`; `NaN`, modelled as `none`, fails the test). -/
def rangeOk : Option Nat → Option Nat
  | some n => if n ≤ 100 then some n else none
  | none => none

/-- Substring test `hay.includes(needle)` at the head of the input
(case-sensitive, as in the source, which lowercases the haystack first). -/
def subAt : List Char → List Char → Bool
  | [], _ => true
  | _ :: _, [] => false
  | a :: as, b :: bs => a == b && subAt as bs

/-- Substring test `hay.includes(needle)`. -/
def hasSub (needle : List Char) : List Char → Bool
  | [] => subAt needle []
  | b :: t => subAt needle (b :: t) || hasSub needle t

/-- ASCII lowercasing, modelling `String.prototype.toLowerCase` on the
ASCII inputs concerned. -/
def lowerStr (cs : List Char) : List Char := cs.map Char.toLower

/-- Keyword fallback of `extractMatchScore`: tier estimates from the
lowercased text, checked in source order. -/
def keywordScore (cs : List Char) : Nat :=
  if hasSub "excellent".data (lowerStr cs) || hasSub "strong match".data (lowerStr cs) then 85
  else if hasSub "good".data (lowerStr cs) || hasSub "suitable".data (lowerStr cs) then 75
  else if hasSub "fair".data (lowerStr cs) || hasSub "potential".data (lowerStr cs) then 65
  else 60

/-- Embedding of `extractMatchScore`: the four regex patterns are tried in
source order, each accepted only with an in-range captured value, and the
keyword fallback decides otherwise. -/
def extractScoreL (cs : List Char) : Nat :=
  match rangeOk (matchPat1 cs) with
  | some n => n
  | none =>
    match rangeOk (matchPat2 cs) with
    | some n => n
    | none =>
      match rangeOk (matchPat3 cs) with
      | some n => n
      | none =>
        match rangeOk (matchPat4 cs) with
        | some n => n
        | none => keywordScore cs

/-- `extractMatchScore` on a `String`. -/
def extractMatchScore (s : String) : Nat := extractScoreL s.data

/-- Anchored match of the opening-heading literal `<h[2-4]>`
(case-insensitive); returns the remainder. -/
def openTagAt (cs : List Char) : Option (List Char) :=
  match cs with
  | a :: b :: c :: d :: r =>
    if a == '<' && b.toLower == 'h' && (c == '2' || c == '3' || c == '4') && d == '>'
    then some r else none
  | _ => none

/-- Anchored match of the closing-heading literal `<\/h[2-4]>`
(case-insensitive); returns the remainder. -/
def closeTagAt (cs : List Char) : Option (List Char) :=
  match cs with
  | a :: b :: c :: d :: e :: r =>
    if a == '<' && b == '/' && c.toLower == 'h' && (d == '2' || d == '3' || d == '4') && e == '>'
    then some r else none
  | _ => none

/-- Anchored test for the three-character lookahead alternative `<h[2-4]`
(case-insensitive). -/
def headStartB (cs : List Char) : Bool :=
  match cs with
  | a :: b :: c :: _ => a == '<' && b.toLower == 'h' && (c == '2' || c == '3' || c == '4')
  | _ => false

/-- Remainder after the first occurrence of `<h[2-4]>`. -/
def dropOpenTag : List Char → Option (List Char)
  | [] => (match openTagAt [] with | some r => some r | none => none)
  | c :: t =>
    match openTagAt (c :: t) with
    | some r => some r
    | none => dropOpenTag t

/-- Remainder after the first occurrence of `<\/h[2-4]>`. -/
def dropCloseTag : List Char → Option (List Char)
  | [] => (match closeTagAt [] with | some r => some r | none => none)
  | c :: t =>
    match closeTagAt (c :: t) with
    | some r => some r
    | none => dropCloseTag t

/-- Remainder after the first case-insensitive occurrence of a literal
(`.*?lit` under the dotall `s` flag has no line-terminator constraint). -/
def dropSubCI (kw : List Char) : List Char → Option (List Char)
  | [] => (match litAt kw [] with | some r => some r | none => none)
  | c :: t =>
    match litAt kw (c :: t) with
    | some r => some r
    | none => dropSubCI kw t

/-- The lazy dotall capture `(.*?)(?=<h[2-4]|$)`: everything up to the first
position where `<h[2-4]` matches, or the whole remainder. -/
def captureUntil : List Char → List Char
  | [] => []
  | c :: t => if headStartB (c :: t) then [] else c :: captureUntil t

/-- Embedding of one section regex of `parseAnalysisResult`, i.e.
`/<h[2-4]>.*?kw.*?<\/h[2-4]>(.*?)(?=<h[2-4]|$)/is`: the capture of the
leftmost match.  With the dotall flag the lazy gaps reduce to
first-occurrence searches, and a failure after the first opening tag cannot
be rescued at a later starting position because the later searches scan
subsets of the same suffix. -/
def sectionMatch (kw : List Char) (cs : List Char) : Option (List Char) :=
  match dropOpenTag cs with
  | none => none
  | some r1 =>
    match dropSubCI kw r1 with
    | none => none
    | some r2 =>
      match dropCloseTag r2 with
      | none => none
      | some r3 => some (captureUntil r3)

/-- The structured analysis record built by `parseAnalysisResult`. -/
structure Sections where
  skills : String
  experience : String
  recommendations : String
  strengths : String
  weaknesses : String
  overall : String
deriving DecidableEq

/-- Embedding of `parseAnalysisResult`: the three section regexes populate
their fields when they match, `strengths` and `weaknesses` are never
assigned after initialisation, and `overall` always holds the input. -/
def parseAnalysisResult (s : String) : Sections :=
  { skills := String.mk ((sectionMatch "skills".data s.data).getD [])
  , experience := String.mk ((sectionMatch "experience".data s.data).getD [])
  , recommendations := String.mk ((sectionMatch "recommendation".data s.data).getD [])
  , strengths := ""
  , weaknesses := ""
  , overall := s }

/-- Score derivation on a successful analyze response:
`data.matchScore || extractMatchScore(data.result)`.  A missing field is
`undefined` and the number `0` is falsy, so both select the heuristic. -/
def deriveMatchScore (serverScore : Option Nat) (result : String) : Nat :=
  match serverScore with
  | some n => if n = 0 then extractMatchScore result else n
  | none => extractMatchScore result

/-- The stored results object of a successful submission. -/
structure AnalysisOutcome where
  matchScore : Nat
  analysis : Sections
  rawAnalysis : String
  analyzedAt : String
deriving DecidableEq

/-- Construction of the stored results on the success path of
`handleSubmit`. -/
def buildResults (serverScore : Option Nat) (result : String) (analyzedAt : String) :
    AnalysisOutcome :=
  { matchScore := deriveMatchScore serverScore result
  , analysis := parseAnalysisResult result
  , rawAnalysis := result
  , analyzedAt := analyzedAt }

/-- The API health indicator states. -/
inductive ApiStatus
  | checking
  | connected
  | error
deriving DecidableEq

/-- Metadata of a candidate upload, as read from a DOM `File`. -/
structure FileMeta where
  name : String
  type : String
  size : Nat
deriving DecidableEq

/-- The component state of `App` that the validated operations touch. -/
structure ClientState where
  file : Option FileMeta
  jobDescription : String
  isLoading : Bool
  results : Option AnalysisOutcome
  error : Option String
  apiStatus : ApiStatus
deriving DecidableEq

/-- Embedding of `handleFileChange`: type check, then size check, then
store-and-clear-error. -/
def handleFileChange (s : ClientState) (f : FileMeta) : ClientState :=
  if f.type ≠ "application/pdf" then { s with error := some "Only PDF files are allowed" }
  else if f.size > 5 * 1024 * 1024 then { s with error := some "File size exceeds 5MB limit" }
  else { s with file := some f, error := none }

/-- JS `String.prototype.trim`. -/
def trimL (cs : List Char) : List Char :=
  ((cs.dropWhile isJsWs).reverse.dropWhile isJsWs).reverse

/-- The precondition chain of `handleSubmit`, in source order; the first
violated condition yields its message. -/
def submitError (s : ClientState) : Option String :=
  if s.file.isNone then some "Please upload your resume"
  else if trimL s.jobDescription.data = [] then some "Please enter the job description"
  else if (trimL s.jobDescription.data).length < 20 then
    some "Job description must be at least 20 characters long"
  else if s.apiStatus = ApiStatus.error then
    some "Backend server is not available. Please ensure the server is running"
  else none

/-- What `handleSubmit` does before any network traffic: abort, or issue
the multipart request. -/
inductive SubmitAction
  | abort
  | request (resume : FileMeta) (jobDescription : String)
deriving DecidableEq

/-- Embedding of the synchronous head of `handleSubmit`: a violated
precondition sets its error and aborts with no other state change; when
every precondition holds the loading flag is set, prior error and results
are cleared, and the request `resume`/`jobDescription` is issued. -/
def submitStep (s : ClientState) : ClientState × SubmitAction :=
  match submitError s with
  | some m => ({ s with error := some m }, SubmitAction.abort)
  | none =>
    match s.file with
    | some f =>
      ({ s with isLoading := true, error := none, results := none },
       SubmitAction.request f s.jobDescription)
    | none => (s, SubmitAction.abort)

/-- Embedding of `getScoreColor`. -/
def getScoreColor (score : Nat) : String :=
  if score ≥ 90 then "from-green-500 to-emerald-600 border-green-400/50"
  else if score ≥ 80 then "from-blue-500 to-cyan-600 border-blue-400/50"
  else if score ≥ 70 then "from-yellow-500 to-orange-600 border-yellow-400/50"
  else "from-red-500 to-red-600 border-red-400/50"

/-- Embedding of `getScoreIcon`. -/
def getScoreIcon (score : Nat) : String :=
  if score ≥ 90 then "🎯"
  else if score ≥ 80 then "👍"
  else if score ≥ 70 then "👌"
  else "⚠️"

/-- Embedding of `getScoreDescription`. -/
def getScoreDescription (score : Nat) : String :=
  if score ≥ 90 then "Excellent Match"
  else if score ≥ 80 then "Strong Match"
  else if score ≥ 70 then "Good Match"
  else if score ≥ 60 then "Fair Match"
  else "Needs Improvement"

/-- The message the share button sets before scheduling its own 2 s
clear. -/
def shareMsg : String := "Analysis link copied to clipboard!"

/-- Discrete-event state of the error display and its clear timers: the
displayed message, the fire time of the timer owned by the
`useEffect([error])` hook (at most one, because the effect cleanup runs
`clearTimeout` before a new timer is created), and the fire times of the
unmanaged timers created inline by the share button's `onClick`. -/
structure TimerSt where
  err : Option String
  eff : Option Nat
  man : List Nat
deriving DecidableEq

/-- The initial timer state: no error displayed, nothing scheduled. -/
def initTS : TimerSt := { err := none, eff := none, man := [] }

/-- All pending clear-timer fire times. -/
def pend (s : TimerSt) : List Nat := s.eff.toList ++ s.man

/-- `setError(m)` at time `now`: if the value is unchanged React bails out
and the effect does not re-run; otherwise the effect cleanup cancels the
previous 8 s timer and a fresh one is scheduled for `now + 8000`. -/
def applySetError (s : TimerSt) (m : String) (now : Nat) : TimerSt :=
  if s.err = some m then s
  else { err := some m, eff := some (now + 8000), man := s.man }

/-- The share button's `onClick` resolution at time `now`: `setError` with
the confirmation message plus an inline `setTimeout(() => setError(null),
2000)` that no cleanup ever cancels. -/
def applyShare (s : TimerSt) (now : Nat) : TimerSt :=
  let s1 := applySetError s shareMsg now
  { s1 with man := (now + 2000) :: s1.man }

/-- The effect-owned timer fires: `setError(null)`; if a message was shown
the state change re-runs the effect, whose cleanup cancels the (already
elapsed) managed timer. -/
def fireTimerEff (s : TimerSt) : TimerSt :=
  let s0 : TimerSt := { s with eff := none }
  if s0.err = none then s0 else { s0 with err := none, eff := none }

/-- An unmanaged share timer with fire time `tf` fires: `setError(null)`;
if a message was shown, the resulting effect re-run cancels the pending
managed 8 s timer. -/
def fireTimerMan (s : TimerSt) (tf : Nat) : TimerSt :=
  let s0 : TimerSt := { s with man := s.man.erase tf }
  if s0.err = none then s0 else { s0 with err := none, eff := none }

/-- The earliest pending fire time not later than `upTo`, if any. -/
def nextDue (s : TimerSt) (upTo : Nat) : Option Nat :=
  ((pend s).filter (fun t => t ≤ upTo)).min?

/-- Fire the due timer at time `tf` (the managed timer first on a tie). -/
def fireAt (s : TimerSt) (tf : Nat) : TimerSt :=
  if s.eff = some tf then fireTimerEff s else fireTimerMan s tf

/-- Fire, in chronological order, every pending timer due by `upTo`.  Each
step removes one pending timer, so `fuel = (pend s).length` always
suffices. -/
def advanceF : Nat → TimerSt → Nat → TimerSt
  | 0, s, _ => s
  | fuel + 1, s, upTo =>
    match nextDue s upTo with
    | none => s
    | some tf => advanceF fuel (fireAt s tf) upTo

/-- Advance the timer state to time `upTo`, firing all due timers. -/
def advance (s : TimerSt) (upTo : Nat) : TimerSt := advanceF (pend s).length s upTo

/-- The externally triggered events that set an error message. -/
inductive ClientEv
  | setE (m : String)
  | share
deriving DecidableEq

/-- Apply one external event at its time. -/
def applyEv (s : TimerSt) (e : ClientEv) (now : Nat) : TimerSt :=
  match e with
  | ClientEv.setE m => applySetError s m now
  | ClientEv.share => applyShare s now

/-- Run a chronologically ordered event trace and observe the state at
time `upTo`: timers due before each event fire first, and the remaining
due timers fire at the end. -/
def runTo (s : TimerSt) : List (Nat × ClientEv) → Nat → TimerSt
  | [], upTo => advance s upTo
  | (t, e) :: rest, upTo =>
    if t ≤ upTo then runTo (applyEv (advance s t) e t) rest upTo
    else advance s upTo

/-- The state reached after processing a prefix of events (each preceded by
firing its due timers), with no final advance. -/
def procTo (s : TimerSt) : List (Nat × ClientEv) → TimerSt
  | [] => s
  | (t, e) :: rest => procTo (applyEv (advance s t) e t) rest

/-- `needle` occurs contiguously inside `hay` (the meaning of
`hay.includes(needle)` in the spec's keyword conditions). -/
def SubstrOf (needle hay : List Char) : Prop := ∃ p q, hay = p ++ needle ++ q

/-- Modelled from the spec claim: the 4-tier banding with cut points
`>= 90`, `>= 80`, `>= 70`, else. -/
def specBand4 (score : Nat) : Fin 4 :=
  if 90 ≤ score then 0 else if 80 ≤ score then 1 else if 70 ≤ score then 2 else 3

/-- The 5-tier banding actually used by `getScoreDescription`, which adds a
`>= 60` cut point. -/
def specBand5 (score : Nat) : Fin 5 :=
  if 90 ≤ score then 0
  else if 80 ≤ score then 1
  else if 70 ≤ score then 2
  else if 60 ≤ score then 3
  else 4

/-- The color scheme of each 4-tier band. -/
def colorOfBand : Fin 4 → String
  | 0 => "from-green-500 to-emerald-600 border-green-400/50"
  | 1 => "from-blue-500 to-cyan-600 border-blue-400/50"
  | 2 => "from-yellow-500 to-orange-600 border-yellow-400/50"
  | 3 => "from-red-500 to-red-600 border-red-400/50"

/-- The icon of each 4-tier band. -/
def iconOfBand : Fin 4 → String
  | 0 => "🎯"
  | 1 => "👍"
  | 2 => "👌"
  | 3 => "⚠️"

/-- The label of each 5-tier band. -/
def labelOfBand : Fin 5 → String
  | 0 => "Excellent Match"
  | 1 => "Strong Match"
  | 2 => "Good Match"
  | 3 => "Fair Match"
  | 4 => "Needs Improvement"

/-- Shape of a matched section capture `c` inside the input `ts`: the
capture sits immediately after a closing heading tag, runs up to the next
heading start or the end of the text, and contains no heading start at any
of its own positions. -/
def SectionShape (ts c : List Char) : Prop :=
  ∃ pre tag post,
    ts = pre ++ tag ++ c ++ post ∧
    closeTagAt (tag ++ c ++ post) = some (c ++ post) ∧
    (post = [] ∨ headStartB post = true) ∧
    ∀ i, i < c.length → headStartB (List.drop i (c ++ post)) = false

/-! ## Helper lemmas -/

theorem rangeOk_le {o : Option Nat} {n : Nat} (h : rangeOk o = some n) : n ≤ 100 := by
  cases o with
  | none => simp [rangeOk] at h
  | some m =>
    by_cases hm : m ≤ 100
    · simp [rangeOk, hm] at h
      omega
    · simp [rangeOk, hm] at h

theorem keywordScore_cases (cs : List Char) :
    keywordScore cs = 85 ∨ keywordScore cs = 75 ∨ keywordScore cs = 65 ∨ keywordScore cs = 60 := by
  unfold keywordScore
  split_ifs <;> simp

theorem subAt_iff (n : List Char) : ∀ hay, subAt n hay = true ↔ ∃ q, hay = n ++ q := by
  induction n with
  | nil => intro hay; simp [subAt]
  | cons a as ih =>
    intro hay
    cases hay with
    | nil =>
      simp [subAt]
    | cons b bs =>
      simp only [subAt, Bool.and_eq_true, beq_iff_eq, ih, List.cons_append]
      constructor
      · rintro ⟨rfl, q, rfl⟩
        exact ⟨q, rfl⟩
      · rintro ⟨q, hq⟩
        rw [List.cons_eq_cons] at hq
        exact ⟨hq.1.symm, q, hq.2⟩

theorem hasSub_iff (n : List Char) : ∀ hay, hasSub n hay = true ↔ SubstrOf n hay := by
  intro hay
  induction hay with
  | nil =>
    simp only [hasSub, subAt_iff, SubstrOf]
    constructor
    · rintro ⟨q, hq⟩
      exact ⟨[], q, by simpa using hq⟩
    · rintro ⟨p, q, hq⟩
      have h3 : p = [] ∧ n = [] ∧ q = [] := by simpa [List.append_assoc] using hq.symm
      exact ⟨q, by simp [h3.2.1, h3.2.2]⟩
  | cons b bs ih =>
    simp only [hasSub, Bool.or_eq_true, subAt_iff, ih, SubstrOf]
    constructor
    · rintro (⟨q, hq⟩ | ⟨p, q, hq⟩)
      · exact ⟨[], q, by simpa using hq⟩
      · exact ⟨b :: p, q, by simp [hq]⟩
    · rintro ⟨p, q, hq⟩
      cases p with
      | nil => exact Or.inl ⟨q, by simpa using hq⟩
      | cons c p2 =>
        rw [List.cons_append, List.cons_append, List.cons_eq_cons] at hq
        exact Or.inr ⟨p2, q, hq.2⟩

theorem hasSub_false {n h : List Char} (e : hasSub n h = false) : ¬ SubstrOf n h := by
  intro hs
  have ht := (hasSub_iff n h).mpr hs
  rw [e] at ht
  exact Bool.noConfusion ht

/-! ## Claims -/

/-- Claim C1 (code_bug evaluation): on the input `"Rating: 42%"`, whose only
percentage occurrence is the standalone `42%` (witnessed by the pattern-four
match list `[42]`) and which matches none of the first three patterns,
`extractMatchScore` returns the keyword fallback 60 rather than the 42 the
claim requires: with the `g` flag, `match[1]` is the second full match, not
the capture, and here it is `undefined`. -/
theorem extractMatchScore_standalone_pct :
    extractMatchScore "Rating: 42%" = 60 ∧
    allPct "Rating: 42%".data = [42] ∧
    rangeOk (matchPat1 "Rating: 42%".data) = none ∧
    rangeOk (matchPat2 "Rating: 42%".data) = none ∧
    rangeOk (matchPat3 "Rating: 42%".data) = none := by
  refine ⟨rfl, rfl, rfl, rfl, rfl⟩

/-- Claim C2 (counterexample): a successful response carrying the
server-supplied integer score 0 does not store 0 — the falsy `||` coalescing
runs the text heuristic instead, storing 60. -/
theorem serverScore_zero_cex :
    (buildResults (some 0) "bad" "2024-01-01").matchScore = 60 ∧
    (buildResults (some 0) "bad" "2024-01-01").matchScore ≠ 0 ∧
    extractMatchScore "bad" = 60 := by
  refine ⟨rfl, by decide, rfl⟩

/-- Claim C2 (amended): for every successful response carrying a non-zero
(truthy) server matchScore, the stored result's matchScore equals the server
value and the text heuristic is not consulted. -/
theorem serverScore_precedence (n : Nat) (r a : String) (hn : n ≠ 0) :
    (buildResults (some n) r a).matchScore = n := by
  simp [buildResults, deriveMatchScore, hn]

/-- Claim C2 (witness): the spec's example — a response with matchScore 92
yields a stored matchScore of 92. -/
theorem serverScore_precedence_witness :
    (buildResults (some 92) "<h2>Skills</h2>Good skills<h2>Experience</h2>5 years"
       "2024-01-01").matchScore = 92 :=
  serverScore_precedence 92 "<h2>Skills</h2>Good skills<h2>Experience</h2>5 years"
    "2024-01-01" (by decide)

/-- Claim C7: a candidate file whose MIME type is not `application/pdf` is
rejected with the validation message and the whole state except the error
message — in particular the stored file — is unchanged. -/
theorem file_type_validation (s : ClientState) (f : FileMeta)
    (h : f.type ≠ "application/pdf") :
    handleFileChange s f = { s with error := some "Only PDF files are allowed" } := by
  simp [handleFileChange, h]

/-- Claim C7 (witness): a concrete text file is rejected and the stored file
state (here: none) is retained. -/
theorem file_type_validation_witness :
    handleFileChange
      { file := none, jobDescription := "", isLoading := false, results := none,
        error := none, apiStatus := ApiStatus.connected }
      { name := "resume.txt", type := "text/plain", size := 100 } =
    { file := none, jobDescription := "", isLoading := false, results := none,
      error := some "Only PDF files are allowed", apiStatus := ApiStatus.connected } :=
  file_type_validation _ _ (by decide)

/-- Claim C8: a candidate file larger than 5,242,880 bytes is rejected —
the stored file state is unchanged and an error is set — regardless of its
MIME type. -/
theorem file_size_validation (s : ClientState) (f : FileMeta)
    (h : f.size > 5242880) :
    (handleFileChange s f).file = s.file ∧ (handleFileChange s f).error.isSome = true := by
  by_cases ht : f.type = "application/pdf"
  · have h5 : f.size > 5 * 1024 * 1024 := by omega
    simp [handleFileChange, ht, h5]
  · simp [handleFileChange, ht]

/-- Claim C8 (witness): a 6,000,000-byte PDF and a 6,000,000-byte zip are
both rejected without storing the file. -/
theorem file_size_validation_witness :
    ((handleFileChange
      { file := none, jobDescription := "", isLoading := false, results := none,
        error := none, apiStatus := ApiStatus.connected }
      { name := "big.pdf", type := "application/pdf", size := 6000000 }).file = none ∧
    (handleFileChange
      { file := none, jobDescription := "", isLoading := false, results := none,
        error := none, apiStatus := ApiStatus.connected }
      { name := "big.zip", type := "application/zip", size := 6000000 }).error.isSome = true) :=
  ⟨(file_size_validation _ _ (by decide)).1, (file_size_validation _ _ (by decide)).2⟩

/-- Claim C10: `extractMatchScore` is total and its result always lies in
`[0, 100]` (the lower bound is inherent to `Nat`): the result is either an
in-range capture of one of the four patterns or one of the fallback values
85, 75, 65, 60. -/
theorem extractMatchScore_total_range (s : String) :
    extractMatchScore s ≤ 100 ∧
    (rangeOk (matchPat1 s.data) = some (extractMatchScore s) ∨
     rangeOk (matchPat2 s.data) = some (extractMatchScore s) ∨
     rangeOk (matchPat3 s.data) = some (extractMatchScore s) ∨
     rangeOk (matchPat4 s.data) = some (extractMatchScore s) ∨
     extractMatchScore s = 85 ∨ extractMatchScore s = 75 ∨
     extractMatchScore s = 65 ∨ extractMatchScore s = 60) := by
  rcases h1 : rangeOk (matchPat1 s.data) with _ | n
  · rcases h2 : rangeOk (matchPat2 s.data) with _ | n
    · rcases h3 : rangeOk (matchPat3 s.data) with _ | n
      · rcases h4 : rangeOk (matchPat4 s.data) with _ | n
        · have e : extractMatchScore s = keywordScore s.data := by
            unfold extractMatchScore extractScoreL
            rw [h1, h2, h3, h4]
          rw [e]
          rcases keywordScore_cases s.data with h | h | h | h <;> rw [h] <;> simp
        · have e : extractMatchScore s = n := by
            unfold extractMatchScore extractScoreL
            rw [h1, h2, h3, h4]
          rw [e]
          exact ⟨rangeOk_le h4, by simp [h4]⟩
      · have e : extractMatchScore s = n := by
          unfold extractMatchScore extractScoreL
          rw [h1, h2, h3]
        rw [e]
        exact ⟨rangeOk_le h3, by simp [h3]⟩
    · have e : extractMatchScore s = n := by
        unfold extractMatchScore extractScoreL
        rw [h1, h2]
      rw [e]
      exact ⟨rangeOk_le h2, by simp [h2]⟩
  · have e : extractMatchScore s = n := by
      unfold extractMatchScore extractScoreL
      rw [h1]
    rw [e]
    exact ⟨rangeOk_le h1, by simp [h1]⟩

/-- Claim C4: whenever none of the four score patterns yields an in-range
capture, `extractMatchScore` returns exactly the keyword tier decided in
order on the lowercased text: 85 for "excellent"/"strong match", else 75
for "good"/"suitable", else 65 for "fair"/"potential", else 60. -/
theorem keyword_fallback_tiers (s : String)
    (h1 : rangeOk (matchPat1 s.data) = none)
    (h2 : rangeOk (matchPat2 s.data) = none)
    (h3 : rangeOk (matchPat3 s.data) = none)
    (h4 : rangeOk (matchPat4 s.data) = none) :
    ((SubstrOf "excellent".data (lowerStr s.data) ∨
      SubstrOf "strong match".data (lowerStr s.data)) →
        extractMatchScore s = 85) ∧
    (¬(SubstrOf "excellent".data (lowerStr s.data) ∨
       SubstrOf "strong match".data (lowerStr s.data)) →
     (SubstrOf "good".data (lowerStr s.data) ∨
      SubstrOf "suitable".data (lowerStr s.data)) →
        extractMatchScore s = 75) ∧
    (¬(SubstrOf "excellent".data (lowerStr s.data) ∨
       SubstrOf "strong match".data (lowerStr s.data)) →
     ¬(SubstrOf "good".data (lowerStr s.data) ∨
       SubstrOf "suitable".data (lowerStr s.data)) →
     (SubstrOf "fair".data (lowerStr s.data) ∨
      SubstrOf "potential".data (lowerStr s.data)) →
        extractMatchScore s = 65) ∧
    (¬(SubstrOf "excellent".data (lowerStr s.data) ∨
       SubstrOf "strong match".data (lowerStr s.data)) →
     ¬(SubstrOf "good".data (lowerStr s.data) ∨
       SubstrOf "suitable".data (lowerStr s.data)) →
     ¬(SubstrOf "fair".data (lowerStr s.data) ∨
       SubstrOf "potential".data (lowerStr s.data)) →
        extractMatchScore s = 60) := by
  have e : extractMatchScore s = keywordScore s.data := by
    unfold extractMatchScore extractScoreL
    rw [h1, h2, h3, h4]
  have k1 : (hasSub "excellent".data (lowerStr s.data) ||
             hasSub "strong match".data (lowerStr s.data)) = true ↔
      (SubstrOf "excellent".data (lowerStr s.data) ∨
       SubstrOf "strong match".data (lowerStr s.data)) := by
    simp [hasSub_iff]
  have k2 : (hasSub "good".data (lowerStr s.data) ||
             hasSub "suitable".data (lowerStr s.data)) = true ↔
      (SubstrOf "good".data (lowerStr s.data) ∨
       SubstrOf "suitable".data (lowerStr s.data)) := by
    simp [hasSub_iff]
  have k3 : (hasSub "fair".data (lowerStr s.data) ||
             hasSub "potential".data (lowerStr s.data)) = true ↔
      (SubstrOf "fair".data (lowerStr s.data) ∨
       SubstrOf "potential".data (lowerStr s.data)) := by
    simp [hasSub_iff]
  refine ⟨?_, ?_, ?_, ?_⟩
  · intro hA
    rw [e]
    unfold keywordScore
    rw [if_pos (k1.mpr hA)]
  · intro hnA hB
    have b1 : (hasSub "excellent".data (lowerStr s.data) ||
               hasSub "strong match".data (lowerStr s.data)) = false :=
      Bool.eq_false_iff.mpr (fun hc => hnA (k1.mp hc))
    rw [e]
    unfold keywordScore
    rw [b1]
    simp only [Bool.false_eq_true, if_false]
    rw [if_pos (k2.mpr hB)]
  · intro hnA hnB hC
    have b1 : (hasSub "excellent".data (lowerStr s.data) ||
               hasSub "strong match".data (lowerStr s.data)) = false :=
      Bool.eq_false_iff.mpr (fun hc => hnA (k1.mp hc))
    have b2 : (hasSub "good".data (lowerStr s.data) ||
               hasSub "suitable".data (lowerStr s.data)) = false :=
      Bool.eq_false_iff.mpr (fun hc => hnB (k2.mp hc))
    rw [e]
    unfold keywordScore
    rw [b1, b2]
    simp only [Bool.false_eq_true, if_false]
    rw [if_pos (k3.mpr hC)]
  · intro hnA hnB hnC
    have b1 : (hasSub "excellent".data (lowerStr s.data) ||
               hasSub "strong match".data (lowerStr s.data)) = false :=
      Bool.eq_false_iff.mpr (fun hc => hnA (k1.mp hc))
    have b2 : (hasSub "good".data (lowerStr s.data) ||
               hasSub "suitable".data (lowerStr s.data)) = false :=
      Bool.eq_false_iff.mpr (fun hc => hnB (k2.mp hc))
    have b3 : (hasSub "fair".data (lowerStr s.data) ||
               hasSub "potential".data (lowerStr s.data)) = false :=
      Bool.eq_false_iff.mpr (fun hc => hnC (k3.mp hc))
    rw [e]
    unfold keywordScore
    rw [b1, b2, b3]
    simp only [Bool.false_eq_true, if_false]

/-- Claim C4 (witness): the spec's two examples — a text with "excellent"
and no numeric pattern scores 85, and a keyword-free text scores 60. -/
theorem keyword_fallback_tiers_witness :
    extractMatchScore "We think this is an excellent fit" = 85 ∧
    extractMatchScore "Decent resume" = 60 := by
  constructor
  · exact (keyword_fallback_tiers "We think this is an excellent fit"
      rfl rfl rfl rfl).1
      (Or.inl ((hasSub_iff "excellent".data
        (lowerStr "We think this is an excellent fit".data)).mp rfl))
  · exact (keyword_fallback_tiers "Decent resume" rfl rfl rfl rfl).2.2.2
      (by
        rintro (hs | hs)
        · exact hasSub_false (show hasSub "excellent".data
            (lowerStr "Decent resume".data) = false from rfl) hs
        · exact hasSub_false (show hasSub "strong match".data
            (lowerStr "Decent resume".data) = false from rfl) hs)
      (by
        rintro (hs | hs)
        · exact hasSub_false (show hasSub "good".data
            (lowerStr "Decent resume".data) = false from rfl) hs
        · exact hasSub_false (show hasSub "suitable".data
            (lowerStr "Decent resume".data) = false from rfl) hs)
      (by
        rintro (hs | hs)
        · exact hasSub_false (show hasSub "fair".data
            (lowerStr "Decent resume".data) = false from rfl) hs
        · exact hasSub_false (show hasSub "potential".data
            (lowerStr "Decent resume".data) = false from rfl) hs)

/-- Claim C5 (counterexample): the label function does not partition scores
into the four bands (>= 90, >= 80, >= 70, else): 65 and 50 lie in the same
fourth band yet carry different labels, because `getScoreDescription` has a
fifth tier at >= 60. -/
theorem label_banding_cex :
    specBand4 65 = specBand4 50 ∧
    getScoreDescription 65 ≠ getScoreDescription 50 := by
  constructor
  · rfl
  · decide

theorem getScoreColor_eq (n : Nat) : getScoreColor n = colorOfBand (specBand4 n) := by
  unfold getScoreColor specBand4
  split_ifs <;> rfl

theorem getScoreIcon_eq (n : Nat) : getScoreIcon n = iconOfBand (specBand4 n) := by
  unfold getScoreIcon specBand4
  split_ifs <;> rfl

theorem getScoreDescription_eq (n : Nat) :
    getScoreDescription n = labelOfBand (specBand5 n) := by
  unfold getScoreDescription specBand5
  split_ifs <;> rfl

/-- Claim C5 (amended): the color and icon functions partition scores into
exactly the four bands with cut points >= 90, >= 80, >= 70, else, with a
distinct value per band; the label function instead partitions scores into
five bands (an extra cut point at >= 60), also with a distinct label per
band. -/
theorem score_banding_amended (a b : Nat) :
    (specBand4 a = specBand4 b →
       getScoreColor a = getScoreColor b ∧ getScoreIcon a = getScoreIcon b) ∧
    (specBand4 a ≠ specBand4 b →
       getScoreColor a ≠ getScoreColor b ∧ getScoreIcon a ≠ getScoreIcon b) ∧
    (specBand5 a = specBand5 b → getScoreDescription a = getScoreDescription b) ∧
    (specBand5 a ≠ specBand5 b → getScoreDescription a ≠ getScoreDescription b) := by
  have injC : ∀ i j : Fin 4, colorOfBand i = colorOfBand j → i = j := by decide
  have injI : ∀ i j : Fin 4, iconOfBand i = iconOfBand j → i = j := by decide
  have injL : ∀ i j : Fin 5, labelOfBand i = labelOfBand j → i = j := by decide
  refine ⟨?_, ?_, ?_, ?_⟩
  · intro h
    rw [getScoreColor_eq, getScoreColor_eq, getScoreIcon_eq, getScoreIcon_eq, h]
    exact ⟨rfl, rfl⟩
  · intro h
    constructor
    · intro hc
      exact h (injC _ _ (by rw [← getScoreColor_eq, ← getScoreColor_eq]; exact hc))
    · intro hc
      exact h (injI _ _ (by rw [← getScoreIcon_eq, ← getScoreIcon_eq]; exact hc))
  · intro h
    rw [getScoreDescription_eq, getScoreDescription_eq, h]
  · intro h
    intro hc
    exact h (injL _ _ (by rw [← getScoreDescription_eq, ← getScoreDescription_eq]; exact hc))

/-- Claim C5 (witness): scores 95 and 92 share the top band's color, icons
differ across the 85/75 bands, labels agree on the fourth label band
(65 and 60) and differ across its >= 60 boundary (65 and 59). -/
theorem score_banding_witness :
    getScoreColor 95 = getScoreColor 92 ∧
    getScoreIcon 85 ≠ getScoreIcon 75 ∧
    getScoreDescription 65 = getScoreDescription 60 ∧
    getScoreDescription 65 ≠ getScoreDescription 59 :=
  ⟨((score_banding_amended 95 92).1 rfl).1,
   ((score_banding_amended 85 75).2.1 (by decide)).2,
   (score_banding_amended 65 60).2.2.1 rfl,
   (score_banding_amended 65 59).2.2.2 (by decide)⟩

/-- Claim C3: `handleSubmit` checks its four preconditions in the fixed
source order — file present, trimmed description non-empty, trimmed length
at least 20, API status not error — and the first violated condition sets
exactly its own message and aborts: no request is issued and the file,
description, loading flag and results are untouched (the `with`-update form
of the right-hand sides changes only the error field). -/
theorem submit_precondition_order (s : ClientState) :
    (s.file = none →
      submitStep s =
        ({ s with error := some "Please upload your resume" }, SubmitAction.abort)) ∧
    (s.file ≠ none → trimL s.jobDescription.data = [] →
      submitStep s =
        ({ s with error := some "Please enter the job description" }, SubmitAction.abort)) ∧
    (s.file ≠ none → trimL s.jobDescription.data ≠ [] →
     (trimL s.jobDescription.data).length < 20 →
      submitStep s =
        ({ s with error := some "Job description must be at least 20 characters long" },
         SubmitAction.abort)) ∧
    (s.file ≠ none → ¬ (trimL s.jobDescription.data).length < 20 →
     s.apiStatus = ApiStatus.error →
      submitStep s =
        ({ s with
           error := some "Backend server is not available. Please ensure the server is running" },
         SubmitAction.abort)) ∧
    (s.file ≠ none → ¬ (trimL s.jobDescription.data).length < 20 →
     s.apiStatus ≠ ApiStatus.error →
      ∃ f, s.file = some f ∧
        submitStep s =
          ({ s with isLoading := true, error := none, results := none },
           SubmitAction.request f s.jobDescription)) := by
  refine ⟨?_, ?_, ?_, ?_, ?_⟩
  · intro h
    have he : submitError s = some "Please upload your resume" := by
      simp [submitError, h]
    simp [submitStep, he]
  · intro hf ht
    rcases hsf : s.file with _ | f
    · exact absurd hsf hf
    · have he : submitError s = some "Please enter the job description" := by
        simp [submitError, hsf, ht]
      simp [submitStep, he, hsf]
  · intro hf ht hlen
    rcases hsf : s.file with _ | f
    · exact absurd hsf hf
    · have he : submitError s =
          some "Job description must be at least 20 characters long" := by
        simp [submitError, hsf, ht, hlen]
      simp [submitStep, he, hsf]
  · intro hf hlen hapi
    rcases hsf : s.file with _ | f
    · exact absurd hsf hf
    · have ht : trimL s.jobDescription.data ≠ [] := by
        intro hh
        rw [hh] at hlen
        simp at hlen
      have he : submitError s =
          some "Backend server is not available. Please ensure the server is running" := by
        simp [submitError, hsf, ht, hlen, hapi]
      simp [submitStep, he, hsf]
  · intro hf hlen hapi
    rcases hsf : s.file with _ | f
    · exact absurd hsf hf
    · have ht : trimL s.jobDescription.data ≠ [] := by
        intro hh
        rw [hh] at hlen
        simp at hlen
      have he : submitError s = none := by
        simp [submitError, hsf, ht, hlen, hapi]
      exact ⟨f, rfl, by simp [submitStep, he, hsf]⟩

theorem litAt_suffix (kw : List Char) :
    ∀ cs r, litAt kw cs = some r → ∃ p, cs = p ++ r := by
  induction kw with
  | nil =>
    intro cs r h
    simp only [litAt, Option.some.injEq] at h
    exact ⟨[], by simp [h]⟩
  | cons a as ih =>
    intro cs r h
    cases cs with
    | nil => simp [litAt] at h
    | cons b bs =>
      by_cases hc : a == b.toLower
      · simp only [litAt, hc, if_true] at h
        rcases ih bs r h with ⟨p, hp⟩
        exact ⟨b :: p, by simp [hp]⟩
      · simp [litAt, hc] at h

theorem openTagAt_suffix (cs r : List Char) (h : openTagAt cs = some r) :
    ∃ p, cs = p ++ r := by
  rcases cs with _ | ⟨a, _ | ⟨b, _ | ⟨c, _ | ⟨d, rest⟩⟩⟩⟩
  · simp [openTagAt] at h
  · simp [openTagAt] at h
  · simp [openTagAt] at h
  · simp [openTagAt] at h
  · simp only [openTagAt] at h
    split at h
    · injection h with hr
      subst hr
      exact ⟨[a, b, c, d], rfl⟩
    · exact Option.noConfusion h

theorem closeTagAt_seg (cs r : List Char) (h : closeTagAt cs = some r) :
    ∃ tag, cs = tag ++ r ∧ closeTagAt (tag ++ r) = some r := by
  have horig := h
  rcases cs with _ | ⟨a, _ | ⟨b, _ | ⟨c, _ | ⟨d, _ | ⟨e, rest⟩⟩⟩⟩⟩
  · simp [closeTagAt] at h
  · simp [closeTagAt] at h
  · simp [closeTagAt] at h
  · simp [closeTagAt] at h
  · simp [closeTagAt] at h
  · simp only [closeTagAt] at h
    split at h
    · injection h with hr
      subst hr
      exact ⟨[a, b, c, d, e], rfl, horig⟩
    · exact Option.noConfusion h

theorem dropOpenTag_suffix : ∀ cs r, dropOpenTag cs = some r → ∃ p, cs = p ++ r := by
  intro cs
  induction cs with
  | nil =>
    intro r h
    simp [dropOpenTag, openTagAt] at h
  | cons c t ih =>
    intro r h
    rw [dropOpenTag] at h
    cases ho : openTagAt (c :: t) with
    | some r0 =>
      rw [ho] at h
      simp only [Option.some.injEq] at h
      subst h
      exact openTagAt_suffix _ _ ho
    | none =>
      rw [ho] at h
      simp only at h
      rcases ih r h with ⟨p, hp⟩
      exact ⟨c :: p, by simp [hp]⟩

theorem dropSubCI_suffix (kw : List Char) :
    ∀ cs r, dropSubCI kw cs = some r → ∃ p, cs = p ++ r := by
  intro cs
  induction cs with
  | nil =>
    intro r h
    rw [dropSubCI] at h
    cases ho : litAt kw [] with
    | some r0 =>
      rw [ho] at h
      simp only [Option.some.injEq] at h
      subst h
      exact litAt_suffix kw [] _ ho
    | none =>
      rw [ho] at h
      simp at h
  | cons c t ih =>
    intro r h
    rw [dropSubCI] at h
    cases ho : litAt kw (c :: t) with
    | some r0 =>
      rw [ho] at h
      simp only [Option.some.injEq] at h
      subst h
      exact litAt_suffix kw _ _ ho
    | none =>
      rw [ho] at h
      simp only at h
      rcases ih r h with ⟨p, hp⟩
      exact ⟨c :: p, by simp [hp]⟩

theorem dropCloseTag_decomp :
    ∀ cs r, dropCloseTag cs = some r →
      ∃ p tag, cs = p ++ tag ++ r ∧ closeTagAt (tag ++ r) = some r := by
  intro cs
  induction cs with
  | nil =>
    intro r h
    simp [dropCloseTag, closeTagAt] at h
  | cons c t ih =>
    intro r h
    rw [dropCloseTag] at h
    cases ho : closeTagAt (c :: t) with
    | some r0 =>
      rw [ho] at h
      simp only [Option.some.injEq] at h
      subst h
      rcases closeTagAt_seg _ _ ho with ⟨tag, he, hc⟩
      exact ⟨[], tag, by simpa using he, hc⟩
    | none =>
      rw [ho] at h
      simp only at h
      rcases ih r h with ⟨p, tag, hp, hc⟩
      exact ⟨c :: p, tag, by simp [hp], hc⟩

theorem captureUntil_decomp (cs : List Char) :
    ∃ post, cs = captureUntil cs ++ post ∧ (post = [] ∨ headStartB post = true) ∧
      ∀ i, i < (captureUntil cs).length → headStartB (List.drop i cs) = false := by
  induction cs with
  | nil =>
    exact ⟨[], by simp [captureUntil], Or.inl rfl, by intro i hi; simp [captureUntil] at hi⟩
  | cons c t ih =>
    by_cases hh : headStartB (c :: t) = true
    · refine ⟨c :: t, by simp [captureUntil, hh], Or.inr hh, ?_⟩
      intro i hi
      simp [captureUntil, hh] at hi
    · have hcc : captureUntil (c :: t) = c :: captureUntil t := by
        simp [captureUntil, hh]
      rcases ih with ⟨post, hp, hcond, hmin⟩
      refine ⟨post, by rw [hcc]; simpa using hp, hcond, ?_⟩
      intro i hi
      rw [hcc] at hi
      cases i with
      | zero =>
        simpa using Bool.eq_false_iff.mpr hh
      | succ j =>
        have := hmin j (by simpa using hi)
        simpa using this

theorem sectionMatch_shape (kw : List Char) (ts c : List Char)
    (h : sectionMatch kw ts = some c) : SectionShape ts c := by
  unfold sectionMatch at h
  cases h1 : dropOpenTag ts with
  | none => simp [h1] at h
  | some r1 =>
    simp only [h1] at h
    cases h2 : dropSubCI kw r1 with
    | none => simp [h2] at h
    | some r2 =>
      simp only [h2] at h
      cases h3 : dropCloseTag r2 with
      | none => simp [h3] at h
      | some r3 =>
        simp only [h3, Option.some.injEq] at h
        rcases dropOpenTag_suffix ts r1 h1 with ⟨p1, e1⟩
        rcases dropSubCI_suffix kw r1 r2 h2 with ⟨p2, e2⟩
        rcases dropCloseTag_decomp r2 r3 h3 with ⟨p3, tag, e3, hct⟩
        rcases captureUntil_decomp r3 with ⟨post, ep, hcond, hmin⟩
        rw [h] at ep hmin
        refine ⟨p1 ++ p2 ++ p3, tag, post, ?_, ?_, hcond, ?_⟩
        · rw [e1, e2, e3, ep]
          simp [List.append_assoc]
        · rw [ep] at hct
          rw [List.append_assoc]
          exact hct
        · intro i hi
          have := hmin i (by simpa using hi)
          rw [ep] at this
          exact this

/-- Claim C9: `parseAnalysisResult` keeps the full input verbatim in
`overall`, leaves `strengths` and `weaknesses` (and every unmatched
section) empty, and fills each matched section with exactly the capture of
its section regex: the text sitting immediately after a closing heading tag
`<\/h[2-4]>` and extending up to the next heading start `<h[2-4]` or the
end of the text, containing no heading start inside it. -/
theorem parse_sections_spec (t : String) :
    (parseAnalysisResult t).overall = t ∧
    (parseAnalysisResult t).strengths = "" ∧
    (parseAnalysisResult t).weaknesses = "" ∧
    (sectionMatch "skills".data t.data = none → (parseAnalysisResult t).skills = "") ∧
    (sectionMatch "experience".data t.data = none →
       (parseAnalysisResult t).experience = "") ∧
    (sectionMatch "recommendation".data t.data = none →
       (parseAnalysisResult t).recommendations = "") ∧
    (∀ c, sectionMatch "skills".data t.data = some c →
       (parseAnalysisResult t).skills = String.mk c ∧ SectionShape t.data c) ∧
    (∀ c, sectionMatch "experience".data t.data = some c →
       (parseAnalysisResult t).experience = String.mk c ∧ SectionShape t.data c) ∧
    (∀ c, sectionMatch "recommendation".data t.data = some c →
       (parseAnalysisResult t).recommendations = String.mk c ∧ SectionShape t.data c) := by
  refine ⟨rfl, rfl, rfl, ?_, ?_, ?_, ?_, ?_, ?_⟩
  · intro h
    simp [parseAnalysisResult, h]
  · intro h
    simp [parseAnalysisResult, h]
  · intro h
    simp [parseAnalysisResult, h]
  · intro c h
    exact ⟨by simp [parseAnalysisResult, h], sectionMatch_shape _ _ _ h⟩
  · intro c h
    exact ⟨by simp [parseAnalysisResult, h], sectionMatch_shape _ _ _ h⟩
  · intro c h
    exact ⟨by simp [parseAnalysisResult, h], sectionMatch_shape _ _ _ h⟩

/-- Claim C9 (witness): the spec's example response text yields skills
"Good skills" and experience "5 years", the overall field retains the text
verbatim, and a heading-free text leaves skills empty. -/
theorem parse_sections_witness :
    (parseAnalysisResult "<h2>Skills</h2>Good skills<h2>Experience</h2>5 years").skills =
      "Good skills" ∧
    (parseAnalysisResult "<h2>Skills</h2>Good skills<h2>Experience</h2>5 years").experience =
      "5 years" ∧
    (parseAnalysisResult "<h2>Skills</h2>Good skills<h2>Experience</h2>5 years").overall =
      "<h2>Skills</h2>Good skills<h2>Experience</h2>5 years" ∧
    (parseAnalysisResult "plain text with no headings").skills = "" := by
  refine ⟨?_, ?_,
          (parse_sections_spec "<h2>Skills</h2>Good skills<h2>Experience</h2>5 years").1,
          (parse_sections_spec "plain text with no headings").2.2.2.1 rfl⟩
  · exact ((parse_sections_spec
      "<h2>Skills</h2>Good skills<h2>Experience</h2>5 years").2.2.2.2.2.2.1
      "Good skills".data rfl).1
  · exact ((parse_sections_spec
      "<h2>Skills</h2>Good skills<h2>Experience</h2>5 years").2.2.2.2.2.2.2.1
      "5 years".data rfl).1

theorem fireAt_man (s : TimerSt) (tf : Nat) (h : s.man = []) : (fireAt s tf).man = [] := by
  unfold fireAt fireTimerEff fireTimerMan
  split_ifs
  all_goals cases herr : s.err <;> simp [herr, h]

theorem advanceF_man : ∀ (fuel : Nat) (s : TimerSt) (T : Nat),
    s.man = [] → (advanceF fuel s T).man = []
  | 0, _, _, h => h
  | fuel + 1, s, T, h => by
    rw [advanceF]
    cases hn : nextDue s T with
    | none => exact h
    | some tf => exact advanceF_man fuel _ T (fireAt_man s tf h)

theorem advance_man (s : TimerSt) (T : Nat) (h : s.man = []) : (advance s T).man = [] :=
  advanceF_man _ s T h

theorem procTo_man : ∀ (evs : List (Nat × ClientEv)) (s : TimerSt),
    (∀ p ∈ evs, p.2 ≠ ClientEv.share) → s.man = [] → (procTo s evs).man = []
  | [], _, _, h => h
  | (t, e) :: rest, s, hsh, h => by
    rw [procTo]
    apply procTo_man rest _ (fun p hp => hsh p (List.mem_cons_of_mem _ hp))
    have hadv : (advance s t).man = [] := advance_man s t h
    cases e with
    | setE m =>
      simp only [applyEv]
      unfold applySetError
      split_ifs <;> simp [hadv]
    | share => exact absurd rfl (hsh (t, ClientEv.share) (List.mem_cons_self _ _))

theorem runTo_append : ∀ (evs : List (Nat × ClientEv)) (s : TimerSt)
    (ys : List (Nat × ClientEv)) (T : Nat),
    (∀ p ∈ evs, p.1 ≤ T) → runTo s (evs ++ ys) T = runTo (procTo s evs) ys T
  | [], _, _, _, _ => rfl
  | (t, e) :: rest, s, ys, T, hle => by
    have ht : t ≤ T := hle (t, e) (List.mem_cons_self _ _)
    rw [List.cons_append, runTo, if_pos ht, procTo]
    exact runTo_append rest _ ys T (fun p hp => hle p (List.mem_cons_of_mem _ hp))

theorem advanceF_one (s : TimerSt) (T : Nat) :
    advanceF 1 s T =
      match nextDue s T with
      | none => s
      | some tf => advanceF 0 (fireAt s tf) T := rfl

theorem advance_single (m : String) (tf T : Nat) :
    advance { err := some m, eff := some tf, man := [] } T =
      if tf ≤ T then { err := none, eff := none, man := [] }
      else { err := some m, eff := some tf, man := [] } := by
  by_cases h : tf ≤ T
  · rw [if_pos h]
    show advanceF 1 { err := some m, eff := some tf, man := [] } T = _
    rw [advanceF_one]
    have hnd : nextDue { err := some m, eff := some tf, man := [] } T = some tf := by
      simp [nextDue, pend, List.filter_cons, h, List.min?]
    rw [hnd]
    simp [advanceF, fireAt, fireTimerEff]
  · rw [if_neg h]
    show advanceF 1 { err := some m, eff := some tf, man := [] } T = _
    rw [advanceF_one]
    have hnd : nextDue { err := some m, eff := some tf, man := [] } T = none := by
      simp [nextDue, pend, List.filter_cons, h]
    rw [hnd]

/-- Claim C6 (counterexample): a share click at time 0 leaves two pending
auto-clear timers at time 1000 (the effect's 8 s timer and the inline 2 s
timer), and the confirmation message is already dismissed at time 2000 —
not at the claimed 8 seconds after being set. -/
theorem share_timer_cex :
    (pend (runTo initTS [(0, ClientEv.share)] 1000)).length = 2 ∧
    (runTo initTS [(0, ClientEv.share)] 1000).err = some shareMsg ∧
    (runTo initTS [(0, ClientEv.share)] 2000).err = none := by
  refine ⟨by decide, by decide, by decide⟩

/-- Claim C6 (amended): for error messages set by `setError` outside the
share button, the auto-clear discipline holds: after any share-free prior
trace, setting a message `m` (not already displayed) at time `t` displays
it at every observation time before `t + 8000` and exactly the effect's
8-second timer dismisses it at `t + 8000`, with at most one pending timer
throughout; the share button additionally schedules an unmanaged 2-second
clear timer, so its confirmation message is dismissed early and two timers
coexist (see the counterexample). -/
theorem error_timer_amended (evs : List (Nat × ClientEv)) (t T : Nat) (m : String)
    (hsh : ∀ p ∈ evs, p.2 ≠ ClientEv.share)
    (hle : ∀ p ∈ evs, p.1 ≤ t)
    (hT : t ≤ T)
    (hne : (advance (procTo initTS evs) t).err ≠ some m) :
    (T < t + 8000 →
       (runTo initTS (evs ++ [(t, ClientEv.setE m)]) T).err = some m) ∧
    (t + 8000 ≤ T →
       (runTo initTS (evs ++ [(t, ClientEv.setE m)]) T).err = none) ∧
    (pend (runTo initTS (evs ++ [(t, ClientEv.setE m)]) T)).length ≤ 1 := by
  have hra : runTo initTS (evs ++ [(t, ClientEv.setE m)]) T =
      runTo (procTo initTS evs) [(t, ClientEv.setE m)] T :=
    runTo_append evs initTS _ T (fun p hp => le_trans (hle p hp) hT)
  have hman : (procTo initTS evs).man = [] := procTo_man evs initTS hsh rfl
  have hman2 : (advance (procTo initTS evs) t).man = [] :=
    advance_man _ _ hman
  have hrun : runTo (procTo initTS evs) [(t, ClientEv.setE m)] T =
      advance (applyEv (advance (procTo initTS evs) t) (ClientEv.setE m) t) T := by
    rw [runTo, if_pos hT, runTo]
  have hse : applyEv (advance (procTo initTS evs) t) (ClientEv.setE m) t =
      { err := some m, eff := some (t + 8000), man := [] } := by
    simp only [applyEv]
    unfold applySetError
    rw [if_neg hne, hman2]
  rw [hra, hrun, hse, advance_single]
  by_cases hc : t + 8000 ≤ T
  · rw [if_pos hc]
    exact ⟨fun hlt => absurd hc (by omega), fun _ => rfl, by simp [pend]⟩
  · rw [if_neg hc]
    exact ⟨fun _ => rfl, fun hge => absurd hge hc, by simp [pend]⟩

/-- Claim C6 (witness): a validation error set at time 0 with no later
events is still displayed at time 3000 and dismissed at time 8000, with at
most one pending timer. -/
theorem error_timer_witness :
    (runTo initTS [(0, ClientEv.setE "Please upload your resume")] 3000).err =
      some "Please upload your resume" ∧
    (runTo initTS [(0, ClientEv.setE "Please upload your resume")] 8000).err = none := by
  constructor
  · exact (error_timer_amended [] 0 3000 "Please upload your resume"
      (by simp) (by simp) (by omega) (by decide)).1 (by omega)
  · exact (error_timer_amended [] 0 8000 "Please upload your resume"
      (by simp) (by simp) (by omega) (by decide)).2.1 (by omega)

/-- Claim C3 (witness): each of the four violated-precondition branches at
a concrete state, plus the all-preconditions-met branch. -/
theorem submit_precondition_order_witness :
    (submitStep
      { file := none, jobDescription := "", isLoading := false, results := none,
        error := none, apiStatus := ApiStatus.connected } =
      ({ file := none, jobDescription := "", isLoading := false, results := none,
         error := some "Please upload your resume", apiStatus := ApiStatus.connected },
       SubmitAction.abort)) ∧
    (submitStep
      { file := some { name := "r.pdf", type := "application/pdf", size := 100 },
        jobDescription := "   ", isLoading := false, results := none,
        error := none, apiStatus := ApiStatus.connected } =
      ({ file := some { name := "r.pdf", type := "application/pdf", size := 100 },
         jobDescription := "   ", isLoading := false, results := none,
         error := some "Please enter the job description",
         apiStatus := ApiStatus.connected },
       SubmitAction.abort)) ∧
    (submitStep
      { file := some { name := "r.pdf", type := "application/pdf", size := 100 },
        jobDescription := "too short", isLoading := false, results := none,
        error := none, apiStatus := ApiStatus.connected } =
      ({ file := some { name := "r.pdf", type := "application/pdf", size := 100 },
         jobDescription := "too short", isLoading := false, results := none,
         error := some "Job description must be at least 20 characters long",
         apiStatus := ApiStatus.connected },
       SubmitAction.abort)) ∧
    (submitStep
      { file := some { name := "r.pdf", type := "application/pdf", size := 100 },
        jobDescription := "a long enough job description", isLoading := false,
        results := none, error := none, apiStatus := ApiStatus.error } =
      ({ file := some { name := "r.pdf", type := "application/pdf", size := 100 },
         jobDescription := "a long enough job description", isLoading := false,
         results := none,
         error := some "Backend server is not available. Please ensure the server is running",
         apiStatus := ApiStatus.error },
       SubmitAction.abort)) ∧
    (submitStep
      { file := some { name := "r.pdf", type := "application/pdf", size := 100 },
        jobDescription := "a long enough job description", isLoading := false,
        results := none, error := none, apiStatus := ApiStatus.connected } =
      ({ file := some { name := "r.pdf", type := "application/pdf", size := 100 },
         jobDescription := "a long enough job description", isLoading := true,
         results := none, error := none, apiStatus := ApiStatus.connected },
       SubmitAction.request { name := "r.pdf", type := "application/pdf", size := 100 }
         "a long enough job description")) := by
  refine ⟨(submit_precondition_order _).1 rfl,
          (submit_precondition_order _).2.1 (by decide) (by decide),
          (submit_precondition_order _).2.2.1 (by decide) (by decide) (by decide),
          (submit_precondition_order _).2.2.2.1 (by decide) (by decide) rfl, ?_⟩
  have h := (submit_precondition_order
    { file := some { name := "r.pdf", type := "application/pdf", size := 100 },
      jobDescription := "a long enough job description", isLoading := false,
      results := none, error := none,
      apiStatus := ApiStatus.connected }).2.2.2.2 (by decide) (by decide) (by decide)
  rcases h with ⟨f, hf, hstep⟩
  have hfe : f = { name := "r.pdf", type := "application/pdf", size := 100 } := by
    cases hf
    rfl
  rw [hfe] at hstep
  exact hstep

end SkillSync
